import Mathlib

/-
Verification of the video normalization and upload pipeline of the
smoke-show-swing repository.

The embedding below translates the client-side pipeline:
* `src/src/lib/videoProcessor.ts` (two revisions, separated in the file):
  `initFFmpeg`, `detectAndConvertVideo`, `isLikelyHevc`, `processVideoFile`;
* `src/src/app/page.tsx`: `handleFileSelect` (intake validation, upload,
  availability polling, analyze call);
* `src/src/app/api/upload/route.ts`: the token-generation constraints.

Browser effects (ffmpeg.wasm calls, network fetches, timers) are modelled by
explicit environments recording the outcome of each awaited operation, and the
module-level mutable state of `videoProcessor.ts` is passed explicitly.

JavaScript string operations (`toLowerCase`, `endsWith`, `startsWith`,
`split`) are modelled over the character list of a Lean `String`, so that all
definitions reduce inside the kernel.
-/

deriving instance DecidableEq for Except

namespace SmokeShow

/-- JavaScript `String.prototype.toLowerCase` (ASCII range, which is all the
source uses it for). -/
def jsToLower (s : String) : String :=
  ⟨s.data.map Char.toLower⟩

/-- JavaScript `String.prototype.endsWith`. -/
def jsEndsWith (s suffix : String) : Bool :=
  s.data.drop (s.data.length - suffix.data.length) == suffix.data

/-- JavaScript `String.prototype.startsWith`. -/
def jsStartsWith (s pre : String) : Bool :=
  s.data.take pre.data.length == pre.data

/-- JavaScript `String.prototype.split` with a single-character separator. -/
def jsSplitChar (c : Char) : List Char → List (List Char)
  | [] => [[]]
  | x :: xs =>
    let rest := jsSplitChar c xs
    if x = c then [] :: rest
    else
      match rest with
      | [] => [[x]]
      | r :: rs => (x :: r) :: rs

/-- JavaScript `name.split(".").pop()`: the last dot-separated segment of a
file name (for `"clip.mov"` this is `"mov"`; a name without a dot is returned
whole). -/
def jsExtPop (name : String) : String :=
  ⟨(jsSplitChar '.' name.data).getLastD []⟩

example : jsExtPop "clip.mov" = "mov" := by decide
example : jsExtPop "noext" = "noext" := by decide
example : jsExtPop "a.b.mp4" = "mp4" := by decide

/-- A user-selected media file: declared name, declared MIME type, declared
size in bytes, and raw content bytes (a browser `File`). -/
structure MediaFile where
  name : String
  type : String
  size : Nat
  bytes : List Nat
deriving DecidableEq, Repr

/-- A byte buffer tagged with a MIME type (a browser `Blob`). -/
structure Blob where
  bytes : List Nat
  type : String
deriving DecidableEq, Repr

/-- Embeds `isLikelyHevc` from `src/src/lib/videoProcessor.ts` lines 123-133
(the identical function appears in `src/unnamed/part_001` lines 154-164). -/
def isLikelyHevc (file : MediaFile) : Bool :=
  let isMov := jsEndsWith (jsToLower file.name) ".mov"
  let isHeic := jsEndsWith (jsToLower file.name) ".heic"
  let isHevcMimeType := file.type == "video/mp4" && isMov
  isMov || isHeic || isHevcMimeType

example : isLikelyHevc ⟨"clip.mov", "video/quicktime", 10, [1]⟩ = true := by decide
example : isLikelyHevc ⟨"CLIP.MOV", "video/mp4", 10, [1]⟩ = true := by decide
example : isLikelyHevc ⟨"clip.mp4", "video/mp4", 10, [1]⟩ = false := by decide
example : isLikelyHevc ⟨"clip.mp4", "video/quicktime", 10, [1]⟩ = false := by decide

/-- The module-level mutable state of `src/src/lib/videoProcessor.ts`
(`let ffmpeg: FFmpeg | null = null; let ffmpegInitialized = false;`),
instrumented with a count of fetch-and-instantiate sequences performed
(`load` calls executed) and a counter that assigns an identity to every
`new FFmpeg()` allocation. -/
structure FfmpegState where
  ffmpeg : Option Nat
  ffmpegInitialized : Bool
  fetchCount : Nat
  nextId : Nat
deriving DecidableEq, Repr

/-- One caller of `initFFmpeg`, decomposed at its suspension point: it either
has not run yet, is suspended on `await ffmpegInstance.load(...)` holding its
freshly allocated instance, or has finished with a result. -/
inductive CallerPhase where
  | start : CallerPhase
  | awaitingLoad : Nat → CallerPhase
  | finished : Except String Nat → CallerPhase
deriving DecidableEq, Repr

/-- One atomic segment of `initFFmpeg` (second revision of
`src/src/lib/videoProcessor.ts`, lines 161-183) between suspension points, in
the browser's cooperative event-loop model.

* From `start`: run the cache check `if (ffmpegInitialized && ffmpeg) return
  ffmpeg;`; on a miss allocate `new FFmpeg()` and suspend on `load`.
* From `awaitingLoad`: the load (the fetch-and-instantiate sequence) settles
  with `loadResult`; on success assign the module globals and return the
  local instance, on failure throw the wrapped initialization error.

`loadResult` is the environment's answer for the awaited
`ffmpegInstance.load(...)` call. -/
def stepCaller (loadResult : Except String Unit) (g : FfmpegState) :
    CallerPhase → CallerPhase × FfmpegState
  | CallerPhase.start =>
    match g.ffmpegInitialized, g.ffmpeg with
    | true, some inst => (CallerPhase.finished (Except.ok inst), g)
    | _, _ => (CallerPhase.awaitingLoad g.nextId, { g with nextId := g.nextId + 1 })
  | CallerPhase.awaitingLoad inst =>
    match loadResult with
    | Except.ok _ =>
      (CallerPhase.finished (Except.ok inst),
       { g with ffmpeg := some inst, ffmpegInitialized := true,
                fetchCount := g.fetchCount + 1 })
    | Except.error e =>
      (CallerPhase.finished
        (Except.error ("Failed to initialize video processing: " ++ e)),
       { g with fetchCount := g.fetchCount + 1 })
  | CallerPhase.finished r => (CallerPhase.finished r, g)

/-- Embeds `initFFmpeg` (second revision of `src/src/lib/videoProcessor.ts`,
lines 161-183) run by a single caller without interleaving: both atomic
segments of `stepCaller` executed back to back. -/
def initFFmpeg (loadResult : Except String Unit) (g : FfmpegState) :
    Except String Nat × FfmpegState :=
  match stepCaller loadResult g CallerPhase.start with
  | (CallerPhase.finished r, g1) => (r, g1)
  | (p, g1) =>
    match stepCaller loadResult g1 p with
    | (CallerPhase.finished r, g2) => (r, g2)
    | (_, g2) => (Except.error "unreachable", g2)

example :
    initFFmpeg (Except.ok ()) ⟨none, false, 0, 0⟩ =
      (Except.ok 0, ⟨some 0, true, 1, 1⟩) := by decide
example :
    initFFmpeg (Except.error "net down") ⟨none, false, 0, 0⟩ =
      (Except.error "Failed to initialize video processing: net down",
       ⟨none, false, 1, 1⟩) := by decide
example :
    initFFmpeg (Except.error "net down") ⟨some 7, true, 3, 8⟩ =
      (Except.ok 7, ⟨some 7, true, 3, 8⟩) := by decide

/-- Environment for one `detectAndConvertVideo` call: the outcome of each
awaited ffmpeg.wasm operation. `execResult` is a function of the command-line
argument list the source passes to `instance.exec`. -/
structure ConvertEnv where
  loadResult : Except String Unit
  writeResult : Except String Unit
  execResult : List String → Except String Unit
  readResult : Except String (List Nat)
  deleteInputResult : Except String Unit
  deleteOutputResult : Except String Unit

/-- Scratch input file name: `` `input.${file.name.split(".").pop()}` ``. -/
def inputNameOf (file : MediaFile) : String :=
  "input." ++ jsExtPop file.name

/-- Scratch output file name, fixed by the source. -/
def outputName : String := "output.mp4"

/-- The argument list the source passes to `instance.exec` (second revision of
`src/src/lib/videoProcessor.ts`, lines 198-208; the first revision at lines
67-85 passes the identical list). -/
def execArgs (file : MediaFile) : List String :=
  ["-i", inputNameOf file,
   "-c:v", "libx264",
   "-preset", "medium",
   "-crf", "24",
   "-vf", "scale=1280:-1",
   "-c:a", "aac",
   "-b:a", "128k",
   "-movflags", "faststart",
   outputName]

/-- Observable trace of one `detectAndConvertVideo` call: the command passed
to `exec` (if `exec` was reached) and whether each scratch-file deletion was
attempted. -/
structure ConvertTrace where
  execCmd : Option (List String)
  deleteInputAttempted : Bool
  deleteOutputAttempted : Bool
deriving DecidableEq, Repr

/-- Embeds `detectAndConvertVideo` (second revision of
`src/src/lib/videoProcessor.ts`, lines 185-235): init the session (outside the
`try`, so an init failure propagates unwrapped), then inside the `try` write
the input scratch file, run the fixed encode command, read the output back as
a `video/mp4` blob, and best-effort delete the two scratch files in a nested
`try` whose failure is swallowed (a failure deleting the input skips the
output deletion).  Any failure of write/exec/read is rethrown as
`Failed to convert video: <cause>`. -/
def detectAndConvertVideo (file : MediaFile) (env : ConvertEnv) (g : FfmpegState) :
    Except String Blob × FfmpegState × ConvertTrace :=
  match initFFmpeg env.loadResult g with
  | (Except.error e, g1) => (Except.error e, g1, ⟨none, false, false⟩)
  | (Except.ok _inst, g1) =>
    match env.writeResult with
    | Except.error e =>
      (Except.error ("Failed to convert video: " ++ e), g1, ⟨none, false, false⟩)
    | Except.ok _ =>
      match env.execResult (execArgs file) with
      | Except.error e =>
        (Except.error ("Failed to convert video: " ++ e), g1,
         ⟨some (execArgs file), false, false⟩)
      | Except.ok _ =>
        match env.readResult with
        | Except.error e =>
          (Except.error ("Failed to convert video: " ++ e), g1,
           ⟨some (execArgs file), false, false⟩)
        | Except.ok outputData =>
          let outputBlob : Blob := ⟨outputData, "video/mp4"⟩
          match env.deleteInputResult with
          | Except.error _ =>
            (Except.ok outputBlob, g1, ⟨some (execArgs file), true, false⟩)
          | Except.ok _ =>
            (Except.ok outputBlob, g1, ⟨some (execArgs file), true, true⟩)

/-- Result of `processVideoFile`: the produced blob and the new file name. -/
structure ProcessResult where
  blob : Blob
  filename : String
deriving DecidableEq, Repr

/-- Environment for one `processVideoFile` call (second revision):
whether `typeof WebAssembly === "object" && typeof WebAssembly.instantiate
=== "function"` holds, the ffmpeg operation outcomes, the time in
milliseconds at which the `detectAndConvertVideo` promise settles (raced
against the fixed 30000 ms rejection timer), and the value of `Date.now()`. -/
structure RaceEnv where
  wasmSupported : Bool
  convertEnv : ConvertEnv
  convertDuration : Nat
  now : Nat

/-- The blob of the original file, as used by the fallback path. -/
def originalBlob (file : MediaFile) : Blob :=
  ⟨file.bytes, file.type⟩

/-- Embeds `processVideoFile` (second revision of
`src/src/lib/videoProcessor.ts`, lines 245-270): start from the original
file; if WebAssembly is supported, race `detectAndConvertVideo` against a
30000 ms rejection timer inside a `try` whose `catch` falls back to the
original file; finally name the result
`` `swing-${Date.now()}.${file.name.split('.').pop()}` ``.
The race is settled by whichever promise settles first: the conversion's
outcome if it settles strictly before 30000 ms, otherwise the timer's
rejection. -/
def processVideoFile (file : MediaFile) (env : RaceEnv) (g : FfmpegState) :
    Except String ProcessResult × FfmpegState :=
  let filename := "swing-" ++ toString env.now ++ "." ++ jsExtPop file.name
  if env.wasmSupported then
    match detectAndConvertVideo file env.convertEnv g with
    | (r, g1, _t) =>
      let raced : Except String Blob :=
        if env.convertDuration < 30000 then r
        else Except.error "FFmpeg initialization timed out"
      let convertedBlob : Blob :=
        match raced with
        | Except.ok b => b
        | Except.error _ => originalBlob file
      (Except.ok ⟨convertedBlob, filename⟩, g1)
  else
    (Except.ok ⟨originalBlob file, filename⟩, g)

/-- Embeds `processVideoFile` of the first revision of
`src/src/lib/videoProcessor.ts` (lines 135-152): convert unconditionally (no
WebAssembly check, no deadline, no catch) and name the result
`` `swing-${Date.now()}.mp4` ``.  The first revision's
`detectAndConvertVideo` (lines 47-121) has the same structure as the second
revision's except that its `initFFmpeg` (lines 16-45) rethrows the original
load error unwrapped — a difference confined to the error message of the
failure path, which no theorem about this revision relies on, so the body is
shared. -/
def processVideoFileV1 (file : MediaFile) (env : ConvertEnv) (g : FfmpegState)
    (now : Nat) : Except String ProcessResult × FfmpegState :=
  match detectAndConvertVideo file env g with
  | (Except.ok b, g1, _t) =>
    (Except.ok ⟨b, "swing-" ++ toString now ++ ".mp4"⟩, g1)
  | (Except.error e, g1, _t) => (Except.error e, g1)

/-- Whether an availability poll confirmed the blob: the source's check
`checkResponse.status >= 200 && checkResponse.status < 300` on a poll that
returned a response; a poll whose `fetch` threw (modelled as `Except.error`)
is caught and treated as not confirming. -/
def pollConfirms (r : Except String Nat) : Bool :=
  match r with
  | Except.ok s => decide (200 ≤ s) && decide (s < 300)
  | Except.error _ => false

/-- The availability polling loop of `handleFileSelect`
(`src/src/app/page.tsx` lines 105-121): up to `fuel` attempts starting at
attempt index `i`, each a `GET` of the blob URL with `Range: bytes=0-1`; break
on the first 2xx response, otherwise sleep 1000 ms and retry.  Returns whether
the blob was confirmed accessible, the number of polls issued, and the total
milliseconds slept. -/
def pollLoop (poll : Nat → Except String Nat) : Nat → Nat → Bool × Nat × Nat
  | 0, _ => (false, 0, 0)
  | fuel + 1, i =>
    if pollConfirms (poll i) then (true, 1, 0)
    else
      let (acc, att, slept) := pollLoop poll fuel (i + 1)
      (acc, att + 1, slept + 1000)

/-- Environment for one `handleFileSelect` call: the `processVideoFile`
environment, the initial transcoder-module state, the outcome of the
`upload(...)` call to Vercel Blob (the blob URL on success), the response of
each availability poll, and the outcome of the `/api/analyze` request. -/
structure PageEnv where
  raceEnv : RaceEnv
  ffmpegSt : FfmpegState
  uploadResult : Except String String
  pollStatus : Nat → Except String Nat
  analyzeResult : Except String Unit

/-- Observable outcome of one `handleFileSelect` call: the user-visible error
(if any), the terminal render state, whether `processVideoFile`, the upload,
and the `/api/analyze` request were invoked, and the polling effort spent. -/
structure PageOutcome where
  error : Option String
  renderState : String
  processCalled : Bool
  uploadCalled : Bool
  analyzeCalled : Bool
  pollAttempts : Nat
  sleptMs : Nat
deriving DecidableEq, Repr

/-- Embeds `handleFileSelect` from `src/src/app/page.tsx` (lines 71-148):
reject non-`video/*` MIME types and files over `50 * 1024 * 1024` bytes up
front (setting a user-visible error and calling nothing); otherwise process
the file, upload it, poll the blob URL up to 30 times at 1000 ms spacing, and
only if a poll confirmed accessibility post to `/api/analyze`.  Every thrown
error lands in the outer `catch`, which records the message and the `error`
render state. -/
def handleFileSelect (file : MediaFile) (env : PageEnv) : PageOutcome :=
  if ¬ jsStartsWith file.type "video/" then
    ⟨some "Please upload a video file", "idle", false, false, false, 0, 0⟩
  else if file.size > 50 * 1024 * 1024 then
    ⟨some "Video must be under 50MB", "idle", false, false, false, 0, 0⟩
  else
    match processVideoFile file env.raceEnv env.ffmpegSt with
    | (Except.error e, _) => ⟨some e, "error", true, false, false, 0, 0⟩
    | (Except.ok _res, _) =>
      match env.uploadResult with
      | Except.error e => ⟨some e, "error", true, true, false, 0, 0⟩
      | Except.ok _url =>
        let (accessible, att, slept) := pollLoop env.pollStatus 30 0
        if accessible then
          match env.analyzeResult with
          | Except.ok _ => ⟨none, "complete", true, true, true, att, slept⟩
          | Except.error e => ⟨some e, "error", true, true, true, att, slept⟩
        else
          ⟨some "Video upload succeeded but file is not accessible. Please try again.",
           "error", true, true, false, att, slept⟩

/-- The allow-list declared by `onBeforeGenerateToken` in the first revision
of `src/src/app/api/upload/route.ts` (line 14). -/
def allowedContentTypesV1 : List String :=
  ["video/mp4", "video/quicktime", "video/webm", "video/mov", "video/x-m4v"]

/-- The allow-list declared by `onBeforeGenerateToken` in the second revision
of `src/src/app/api/upload/route.ts` (line 47). -/
def allowedContentTypesV2 : List String :=
  ["video/mp4", "video/quicktime", "video/webm", "video/mov"]

/-- The maximum size declared by `onBeforeGenerateToken` in both revisions of
`src/src/app/api/upload/route.ts`: `50 * 1024 * 1024` bytes. -/
def maximumSizeInBytes : Nat := 50 * 1024 * 1024

/-- Modelled from the spec: the enforcement of the declared token constraints
is performed inside `handleUpload` of the `@vercel/blob/client` library, whose
code is not part of this repository — the route only declares
`allowedContentTypes` and `maximumSizeInBytes`.  Per the spec these bounds are
"enforced server-side, not just advisory": a request whose declared content
type is outside the allow-list or whose declared size exceeds the maximum is
rejected at the authorize step, otherwise a token is granted. -/
def authorizeUpload (allowed : List String) (maxSize : Nat)
    (contentType : String) (size : Nat) : Except String Unit :=
  if allowed.contains contentType then
    if size ≤ maxSize then Except.ok ()
    else Except.error "declared size exceeds maximumSizeInBytes"
  else Except.error "declared content type not in allowedContentTypes"

/-- Modelled from the spec: the two-phase authorize-then-put protocol — bytes
are transferred to object storage only after a token is granted, so a
rejection at the authorize step happens before any byte transfer.  Returns
whether bytes were transferred alongside the authorization outcome. -/
def uploadPipeline (allowed : List String) (maxSize : Nat)
    (contentType : String) (size : Nat) : Bool × Except String Unit :=
  match authorizeUpload allowed maxSize contentType size with
  | Except.error e => (false, Except.error e)
  | Except.ok _ => (true, Except.ok ())

/-- Advance every caller in the list by one atomic segment, left to right,
threading the module-level state: one "round" of the cooperative event loop
over N concurrent `initFFmpeg` callers. -/
def stepRound (loadResult : Except String Unit) (g : FfmpegState) :
    List CallerPhase → FfmpegState × List CallerPhase
  | [] => (g, [])
  | p :: ps =>
    let (p1, g1) := stepCaller loadResult g p
    let (g2, ps1) := stepRound loadResult g1 ps
    (g2, p1 :: ps1)

/-- The module state of `videoProcessor.ts` as first loaded:
`ffmpeg = null`, `ffmpegInitialized = false`, nothing fetched. -/
def initialFfmpegState : FfmpegState := ⟨none, false, 0, 0⟩

/-- N callers invoke `initFFmpeg` concurrently before any initialization
completes: every caller runs its cache-check segment (all miss, since no load
has finished yet), then every caller's `load` settles successfully. -/
def concurrentAcquire (n : Nat) : FfmpegState × List CallerPhase :=
  let r1 := stepRound (Except.ok ()) initialFfmpegState
    (List.replicate n CallerPhase.start)
  stepRound (Except.ok ()) r1.1 r1.2

/-- A 10 MB `.mov` file declared as `video/quicktime`. -/
def movFile : MediaFile := ⟨"clip.mov", "video/quicktime", 10485760, [0, 1, 2]⟩

/-- A small MP4 file. -/
def mp4File : MediaFile := ⟨"a.mp4", "video/mp4", 10, [1, 2]⟩

/-- A non-video file. -/
def textFile : MediaFile := ⟨"a.txt", "text/plain", 10, [1]⟩

/-- An environment in which every ffmpeg operation succeeds and the encoder
produces the bytes `[9, 9]`. -/
def okConvertEnv : ConvertEnv :=
  ⟨Except.ok (), Except.ok (), fun _ => Except.ok (), Except.ok [9, 9],
   Except.ok (), Except.ok ()⟩

/-- An environment in which the encode command itself throws. -/
def failExecEnv : ConvertEnv :=
  ⟨Except.ok (), Except.ok (), fun _ => Except.error "boom", Except.ok [9, 9],
   Except.ok (), Except.ok ()⟩

/-- A race environment in which WebAssembly is supported and conversion
settles at 5000 ms, well before the 30000 ms deadline. -/
def fastRace : RaceEnv := ⟨true, okConvertEnv, 5000, 42⟩

/-- A race environment in which WebAssembly is unsupported. -/
def noWasmRace : RaceEnv := ⟨false, okConvertEnv, 0, 7⟩

/-- A page environment whose availability polls all return HTTP 404. -/
def allNotFoundPageEnv : PageEnv :=
  ⟨noWasmRace, initialFfmpegState, Except.ok "https://blob.example/x",
   fun _ => Except.ok 404, Except.ok ()⟩

/-- A page environment whose availability polls all return HTTP 206. -/
def availablePageEnv : PageEnv :=
  ⟨noWasmRace, initialFfmpegState, Except.ok "https://blob.example/x",
   fun _ => Except.ok 206, Except.ok ()⟩

/-- A successful `detectAndConvertVideo` call produced a `video/mp4` blob
whose bytes are exactly the output scratch-file contents, recorded the fixed
encode command in its trace, and attempted the input scratch-file deletion. -/
theorem detect_ok_shape (file : MediaFile) (env : ConvertEnv) (g : FfmpegState)
    (b : Blob) (g' : FfmpegState) (t : ConvertTrace)
    (h : detectAndConvertVideo file env g = (Except.ok b, g', t)) :
    b.type = "video/mp4" ∧ t.execCmd = some (execArgs file) ∧
      t.deleteInputAttempted = true ∧
      ∃ data, env.readResult = Except.ok data ∧ b.bytes = data := by
  obtain ⟨lr, wr, er, rr, d1, d2⟩ := env
  simp only [detectAndConvertVideo] at h
  rcases h0 : initFFmpeg lr g with ⟨r0, g1⟩
  rw [h0] at h
  cases r0 with
  | error e => simp at h
  | ok inst =>
    cases wr with
    | error e => simp at h
    | ok u =>
      rcases her : er (execArgs file) with u2 | e2
      all_goals rw [her] at h
      case error => simp at h
      cases rr with
      | error e => simp at h
      | ok data =>
        cases d1 with
        | error e =>
          simp only [Prod.mk.injEq, Except.ok.injEq] at h
          obtain ⟨hb, _, ht⟩ := h
          subst hb; subst ht
          exact ⟨rfl, rfl, rfl, data, rfl, rfl⟩
        | ok u3 =>
          simp only [Prod.mk.injEq, Except.ok.injEq] at h
          obtain ⟨hb, _, ht⟩ := h
          subst hb; subst ht
          exact ⟨rfl, rfl, rfl, data, rfl, rfl⟩

/-- The second revision of `processVideoFile` always resolves: its result is the
transcoded blob exactly when WebAssembly is supported and the conversion
succeeded strictly before the 30000 ms deadline, and the original file's
bytes and MIME type otherwise; the file name is always
`swing-<Date.now()>.<original extension>`. -/
theorem processVideoFile_spec (file : MediaFile) (env : RaceEnv) (g : FfmpegState) :
    ∃ res g2, processVideoFile file env g = (Except.ok res, g2) ∧
      res.filename = "swing-" ++ toString env.now ++ "." ++ jsExtPop file.name ∧
      ((env.wasmSupported = true ∧ env.convertDuration < 30000 ∧
          (detectAndConvertVideo file env.convertEnv g).1 = Except.ok res.blob) ∨
        (res.blob = originalBlob file ∧
          (env.wasmSupported = false ∨ 30000 ≤ env.convertDuration ∨
            ∃ e, (detectAndConvertVideo file env.convertEnv g).1 = Except.error e))) := by
  unfold processVideoFile
  rcases hd : detectAndConvertVideo file env.convertEnv g with ⟨r, g1, t⟩
  by_cases hw : env.wasmSupported = true
  · rw [if_pos hw]
    by_cases hdur : env.convertDuration < 30000
    · cases r with
      | ok blob =>
        refine ⟨_, _, rfl, rfl, Or.inl ⟨hw, hdur, ?_⟩⟩
        simp [hd, hdur]
      | error e =>
        refine ⟨_, _, rfl, rfl, Or.inr ⟨?_, Or.inr (Or.inr ⟨e, by simp [hd]⟩)⟩⟩
        simp [hdur]
    · refine ⟨_, _, rfl, rfl,
        Or.inr ⟨?_, Or.inr (Or.inl (Nat.le_of_not_lt hdur))⟩⟩
      simp [hdur]
  · rw [if_neg hw]
    exact ⟨_, _, rfl, rfl,
      Or.inr ⟨rfl, Or.inl (Bool.not_eq_true _ ▸ eq_false_of_ne_true hw)⟩⟩

/-- The polling loop confirms accessibility exactly when some poll within the
attempt budget returns a 2xx response. -/
theorem pollLoop_true_iff (poll : Nat → Except String Nat) :
    ∀ fuel start, (pollLoop poll fuel start).1 = true ↔
      ∃ j, j < fuel ∧ pollConfirms (poll (start + j)) = true := by
  intro fuel
  induction fuel with
  | zero => intro start; simp [pollLoop]
  | succ n ih =>
    intro start
    by_cases h : pollConfirms (poll start) = true
    · simp only [pollLoop, h, if_true]
      exact ⟨fun _ => ⟨0, Nat.succ_pos n, by simpa using h⟩, fun _ => trivial⟩
    · simp only [pollLoop, h, if_false, Bool.false_eq_true]
      rcases hrec : pollLoop poll n (start + 1) with ⟨acc, att, slept⟩
      have := ih (start + 1)
      rw [hrec] at this
      simp only at this ⊢
      rw [this]
      constructor
      · rintro ⟨j, hj, hc⟩
        exact ⟨j + 1, Nat.succ_lt_succ hj, by rwa [Nat.add_comm j 1, ← Nat.add_assoc]⟩
      · rintro ⟨j, hj, hc⟩
        cases j with
        | zero => rw [Nat.add_zero] at hc; exact absurd hc h
        | succ k =>
          exact ⟨k, Nat.lt_of_succ_lt_succ hj,
            by rwa [Nat.add_comm k 1, ← Nat.add_assoc] at hc⟩

/-- When every poll within the budget fails to confirm, the loop issues all
of its attempts, sleeps 1000 ms after each one, and reports inaccessibility. -/
theorem pollLoop_all_fail (poll : Nat → Except String Nat) :
    ∀ fuel start, (∀ j, j < fuel → pollConfirms (poll (start + j)) = false) →
      pollLoop poll fuel start = (false, fuel, 1000 * fuel) := by
  intro fuel
  induction fuel with
  | zero => intro start _; simp [pollLoop]
  | succ n ih =>
    intro start hall
    have h0 : pollConfirms (poll start) = false := by
      simpa using hall 0 (Nat.succ_pos n)
    have hrest : ∀ j, j < n → pollConfirms (poll (start + 1 + j)) = false := by
      intro j hj
      have := hall (j + 1) (Nat.succ_lt_succ hj)
      rwa [Nat.add_comm j 1, ← Nat.add_assoc] at this
    simp only [pollLoop, h0, Bool.false_eq_true, if_false, ih (start + 1) hrest,
      Prod.mk.injEq]
    refine ⟨trivial, trivial, ?_⟩
    ring

/-- A round of cache-check segments over callers that all start before any
initialization has completed: every caller misses the cache and allocates its
own fresh instance. -/
theorem stepRound_start_replicate (load : Except String Unit) :
    ∀ n (g : FfmpegState), g.ffmpegInitialized = false →
      stepRound load g (List.replicate n CallerPhase.start) =
        ({ g with nextId := g.nextId + n },
         ((List.range n).map (fun k => g.nextId + k)).map CallerPhase.awaitingLoad) := by
  intro n
  induction n with
  | zero => intro g _; rfl
  | succ m ih =>
    intro g hg
    rw [List.replicate_succ]
    have hstep : stepCaller load g CallerPhase.start =
        (CallerPhase.awaitingLoad g.nextId, { g with nextId := g.nextId + 1 }) := by
      cases hf : g.ffmpeg <;> simp [stepCaller, hg, hf]
    simp only [stepRound, hstep]
    rw [ih { g with nextId := g.nextId + 1 } hg]
    refine congrArg₂ Prod.mk ?_ ?_
    · simp [Nat.add_assoc, Nat.add_comm 1 m]
    · rw [List.range_succ_eq_map]
      simp only [List.map_cons, List.map_map, Nat.add_zero]
      refine congrArg₂ List.cons rfl ?_
      refine List.map_congr_left ?_
      intro k _
      simp [Function.comp, Nat.add_assoc, Nat.add_comm 1 k]

/-- A round of load-completion segments over callers that are all suspended
on their own `load`: each performs its own fetch-and-instantiate (bumping the
fetch count) and finishes with its own instance. -/
theorem stepRound_awaiting (ids : List Nat) :
    ∀ g : FfmpegState,
      (stepRound (Except.ok ()) g (ids.map CallerPhase.awaitingLoad)).2 =
        ids.map (fun i => CallerPhase.finished (Except.ok i)) ∧
      (stepRound (Except.ok ()) g (ids.map CallerPhase.awaitingLoad)).1.fetchCount =
        g.fetchCount + ids.length := by
  induction ids with
  | nil => intro g; simp [stepRound]
  | cons i rest ih =>
    intro g
    simp only [List.map_cons, stepRound, stepCaller]
    rcases hrec : stepRound (Except.ok ())
        { g with ffmpeg := some i, ffmpegInitialized := true,
                 fetchCount := g.fetchCount + 1 }
        (rest.map CallerPhase.awaitingLoad) with ⟨g2, ps2⟩
    have := ih { g with ffmpeg := some i, ffmpegInitialized := true,
                        fetchCount := g.fetchCount + 1 }
    rw [hrec] at this
    simp only at this ⊢
    obtain ⟨h1, h2⟩ := this
    refine ⟨by rw [h1], ?_⟩
    rw [h2]
    simp [List.length_cons]
    ring

/-- The MIME-type conjunct of `isLikelyHevc` is absorbed by the extension
checks: the verdict is exactly "lowercased name ends in `.mov` or `.heic`". -/
theorem isLikelyHevc_eq_ext (file : MediaFile) :
    isLikelyHevc file =
      (jsEndsWith (jsToLower file.name) ".mov" ||
       jsEndsWith (jsToLower file.name) ".heic") := by
  unfold isLikelyHevc
  cases jsEndsWith (jsToLower file.name) ".mov" <;>
    cases jsEndsWith (jsToLower file.name) ".heic" <;>
    cases file.type == "video/mp4" <;> rfl

/-- A string ending in `.mp4` ends in neither `.mov` nor `.heic`. -/
theorem jsEndsWith_mp4_excl (s : String) (h : jsEndsWith s ".mp4" = true) :
    jsEndsWith s ".mov" = false ∧ jsEndsWith s ".heic" = false := by
  have hm : (".mp4" : String).data = ['.', 'm', 'p', '4'] := rfl
  have hv : (".mov" : String).data = ['.', 'm', 'o', 'v'] := rfl
  have hh : (".heic" : String).data = ['.', 'h', 'e', 'i', 'c'] := rfl
  unfold jsEndsWith at h ⊢
  rw [hm] at h
  rw [hv, hh]
  have h4 : s.data.drop (s.data.length - 4) = ['.', 'm', 'p', '4'] := by
    have := eq_of_beq h
    simpa using this
  have hlen4 : s.data.length - (s.data.length - 4) = 4 := by
    have := congrArg List.length h4
    simpa [List.length_drop] using this
  constructor
  · rw [show (['.', 'm', 'o', 'v'] : List Char).length = 4 from rfl, h4]
    decide
  · rw [show (['.', 'h', 'e', 'i', 'c'] : List Char).length = 5 from rfl]
    apply Bool.eq_false_iff.mpr
    intro hcontra
    have h5 : s.data.drop (s.data.length - 5) = ['.', 'h', 'e', 'i', 'c'] :=
      eq_of_beq hcontra
    have hlen5 : s.data.length - (s.data.length - 5) = 5 := by
      have := congrArg List.length h5
      simpa [List.length_drop] using this
    have hidx : s.data.length - 4 = (s.data.length - 5) + 1 := by omega
    rw [hidx, ← List.drop_drop, h5] at h4
    exact absurd h4 (by decide)

/-- C1: for every input file and every injected failure mode — WebAssembly
unsupported, transcoder initialization failing, the encode command failing,
or the encode settling only at or after the fixed 30000 ms deadline —
`processVideoFile` resolves with an asset: the transcoded blob exactly when
the conversion succeeded strictly before the deadline, and otherwise the
original file's bytes and MIME type unchanged.  It never rejects. -/
theorem claim1_processVideoFile_never_rejects (file : MediaFile) (env : RaceEnv)
    (g : FfmpegState) :
    ∃ res g2, processVideoFile file env g = (Except.ok res, g2) ∧
      ((env.wasmSupported = true ∧ env.convertDuration < 30000 ∧
          (detectAndConvertVideo file env.convertEnv g).1 = Except.ok res.blob) ∨
        (res.blob = originalBlob file ∧
          (env.wasmSupported = false ∨ 30000 ≤ env.convertDuration ∨
            ∃ e, (detectAndConvertVideo file env.convertEnv g).1 = Except.error e))) := by
  obtain ⟨res, g2, h1, _, h3⟩ := processVideoFile_spec file env g
  exact ⟨res, g2, h1, h3⟩

/-- C3 counterexample: a file whose declared MIME type is the QuickTime
type `video/quicktime` but whose name carries a `.mp4` extension is
classified as compatible (`false`) by `isLikelyHevc`, contradicting the
claim that a QuickTime-family MIME type alone forces `true`. -/
theorem claim3_counterexample :
    isLikelyHevc ⟨"clip.mp4", "video/quicktime", 10, [1]⟩ = false := by decide

/-- C3 (amended): `isLikelyHevc` returns `true` exactly when the lowercased
filename ends in the QuickTime-family extensions `.mov` or `.heic` — the
declared MIME type alone never triggers normalization — and every file whose
lowercased name ends in `.mp4` (in particular every standard MP4 file with
MP4 MIME type) is classified compatible (`false`). -/
theorem claim3_sniffer_policy (file : MediaFile) :
    (isLikelyHevc file =
      (jsEndsWith (jsToLower file.name) ".mov" ||
       jsEndsWith (jsToLower file.name) ".heic")) ∧
    (jsEndsWith (jsToLower file.name) ".mp4" = true → isLikelyHevc file = false) := by
  refine ⟨isLikelyHevc_eq_ext file, ?_⟩
  intro h
  obtain ⟨h1, h2⟩ := jsEndsWith_mp4_excl (jsToLower file.name) h
  rw [isLikelyHevc_eq_ext file, h1, h2]
  rfl

/-- Witness for C3: instantiating the amended policy at a concrete `.mov`
file and a concrete `.mp4`/`video/mp4` file. -/
theorem claim3_witness :
    isLikelyHevc ⟨"video.mp4", "video/mp4", 5, [2]⟩ = false ∧
    isLikelyHevc ⟨"swing.mov", "video/quicktime", 5, [2]⟩ = true :=
  ⟨(claim3_sniffer_policy ⟨"video.mp4", "video/mp4", 5, [2]⟩).2 (by decide),
   by rw [(claim3_sniffer_policy ⟨"swing.mov", "video/quicktime", 5, [2]⟩).1]; decide⟩

/-- C10: the intake entry point `handleFileSelect` rejects every file whose
declared MIME type does not start with `video/` and every file larger than
`50 * 1024 * 1024` bytes, setting a user-visible error and invoking neither
the transcoder (`processVideoFile`), nor the upload, nor `/api/analyze`. -/
theorem claim10_intake_validation (file : MediaFile) (env : PageEnv)
    (h : jsStartsWith file.type "video/" = false ∨ file.size > 50 * 1024 * 1024) :
    (handleFileSelect file env).error.isSome = true ∧
    (handleFileSelect file env).processCalled = false ∧
    (handleFileSelect file env).uploadCalled = false ∧
    (handleFileSelect file env).analyzeCalled = false := by
  unfold handleFileSelect
  by_cases ht : jsStartsWith file.type "video/" = true
  · have hs : file.size > 50 * 1024 * 1024 := by
      rcases h with h | h
      · rw [ht] at h; exact absurd h (by simp)
      · exact h
    rw [if_neg (not_not_intro ht), if_pos hs]
    exact ⟨rfl, rfl, rfl, rfl⟩
  · rw [if_pos ht]
    exact ⟨rfl, rfl, rfl, rfl⟩

/-- Witness for C10: a `text/plain` file is rejected without any call. -/
theorem claim10_witness :
    (handleFileSelect textFile allNotFoundPageEnv).error.isSome = true ∧
    (handleFileSelect textFile allNotFoundPageEnv).processCalled = false ∧
    (handleFileSelect textFile allNotFoundPageEnv).uploadCalled = false ∧
    (handleFileSelect textFile allNotFoundPageEnv).analyzeCalled = false :=
  claim10_intake_validation textFile allNotFoundPageEnv (Or.inl (by decide))

/-- C2: for a valid video file whose upload succeeded, the `/api/analyze`
request is issued only if at least one of the 30 availability polls (a `GET`
with `Range: bytes=0-1`) received a 2xx status; and when all 30 polls,
spaced 1000 ms apart, fail to confirm, `handleFileSelect` ends in the error
state with the distinct availability-timeout message, having issued all 30
polls and slept 30000 ms, and without issuing any analyze request. -/
theorem claim2_availability_confirmation (file : MediaFile) (env : PageEnv)
    (url : String)
    (htype : jsStartsWith file.type "video/" = true)
    (hsize : file.size ≤ 50 * 1024 * 1024)
    (hup : env.uploadResult = Except.ok url) :
    ((handleFileSelect file env).analyzeCalled = true →
      ∃ i, i < 30 ∧ pollConfirms (env.pollStatus i) = true) ∧
    ((∀ i, i < 30 → pollConfirms (env.pollStatus i) = false) →
      handleFileSelect file env =
        ⟨some "Video upload succeeded but file is not accessible. Please try again.",
         "error", true, true, false, 30, 30000⟩) := by
  obtain ⟨res, g2, hproc, _, _⟩ := processVideoFile_spec file env.raceEnv env.ffmpegSt
  unfold handleFileSelect
  rw [if_neg (not_not_intro htype), if_neg (Nat.not_lt.mpr hsize), hproc, hup]
  rcases hpl : pollLoop env.pollStatus 30 0 with ⟨acc, att, slept⟩
  dsimp only
  constructor
  · cases acc with
    | false => intro hcontra; exact absurd hcontra (by simp)
    | true =>
      intro _
      have hacc : (pollLoop env.pollStatus 30 0).1 = true := by rw [hpl]
      obtain ⟨j, hj, hc⟩ := (pollLoop_true_iff env.pollStatus 30 0).mp hacc
      exact ⟨j, hj, by simpa using hc⟩
  · intro hall
    have hfail := pollLoop_all_fail env.pollStatus 30 0
      (by intro j hj; simpa using hall j hj)
    rw [hpl] at hfail
    injection hfail with h1 hrest
    injection hrest with h2 h3
    subst h1; subst h2; subst h3
    norm_num

/-- Witness for C2: with every poll answering HTTP 404, the call ends in the
availability-timeout error after 30 polls and 30000 ms of waiting, with no
analyze request. -/
theorem claim2_witness :
    handleFileSelect mp4File allNotFoundPageEnv =
      ⟨some "Video upload succeeded but file is not accessible. Please try again.",
       "error", true, true, false, 30, 30000⟩ :=
  (claim2_availability_confirmation mp4File allNotFoundPageEnv
    "https://blob.example/x" (by decide) (by decide) rfl).2 (by decide)

/-- C4 counterexample: in the revision of `processVideoFile` with the
bounded-time fallback (lines 245-270), a `.mov` file declared as
`video/quicktime` whose transcode succeeds before the deadline yields a
`video/mp4` blob but the filename `swing-42.mov` — the original extension is
kept, so the name does not match the pattern `swing-<timestamp>.mp4`. -/
theorem claim4_counterexample :
    processVideoFile movFile fastRace initialFfmpegState =
      (Except.ok ⟨⟨[9, 9], "video/mp4"⟩, "swing-42.mov"⟩, ⟨some 0, true, 1, 1⟩) ∧
    jsEndsWith "swing-42.mov" ".mp4" = false := by
  constructor <;> decide

/-- C4 (amended): when the transcode succeeds strictly before the deadline,
the asset returned by `processVideoFile` (second revision) has MIME type
`video/mp4` but a filename `swing-<timestamp>.<original extension>`; the
filename pattern `swing-<timestamp>.mp4` holds in the first revision of
`processVideoFile` (lines 135-152), which appends a fixed `.mp4`. -/
theorem claim4_success_naming (file : MediaFile) (env : RaceEnv) (g : FfmpegState)
    (b : Blob) (g1 : FfmpegState) (t : ConvertTrace)
    (hw : env.wasmSupported = true) (hdur : env.convertDuration < 30000)
    (hok : detectAndConvertVideo file env.convertEnv g = (Except.ok b, g1, t)) :
    processVideoFile file env g =
      (Except.ok ⟨b, "swing-" ++ toString env.now ++ "." ++ jsExtPop file.name⟩, g1) ∧
    b.type = "video/mp4" ∧
    (∀ (envc : ConvertEnv) (gc : FfmpegState) (nowc : Nat) (bc : Blob)
        (gc2 : FfmpegState) (tc : ConvertTrace),
      detectAndConvertVideo file envc gc = (Except.ok bc, gc2, tc) →
      processVideoFileV1 file envc gc nowc =
        (Except.ok ⟨bc, "swing-" ++ toString nowc ++ ".mp4"⟩, gc2)) := by
  refine ⟨?_, (detect_ok_shape file env.convertEnv g b g1 t hok).1, ?_⟩
  · unfold processVideoFile
    rw [hok, if_pos hw]
    simp [hdur]
  · intro envc gc nowc bc gc2 tc hc
    unfold processVideoFileV1
    rw [hc]

/-- Witness for C4: instantiating the amended statement at the concrete
`.mov`/`video/quicktime` file with an all-successful fast conversion. -/
theorem claim4_witness :
    processVideoFile movFile fastRace initialFfmpegState =
      (Except.ok ⟨⟨[9, 9], "video/mp4"⟩,
        "swing-" ++ toString fastRace.now ++ "." ++ jsExtPop movFile.name⟩,
       ⟨some 0, true, 1, 1⟩) ∧
    (Blob.mk [9, 9] "video/mp4").type = "video/mp4" :=
  have happ := claim4_success_naming movFile fastRace initialFfmpegState
    ⟨[9, 9], "video/mp4"⟩ ⟨some 0, true, 1, 1⟩
    ⟨some (execArgs movFile), true, true⟩ rfl (by decide) (by decide)
  ⟨happ.1, happ.2.1⟩

/-- On a cache miss, `initFFmpeg` performs the full load: on success it
caches the fresh instance and bumps the fetch count, on failure it wraps the
cause and leaves the cached instance and the initialized flag untouched. -/
theorem initFFmpeg_miss (lr : Except String Unit) (g : FfmpegState)
    (h : g.ffmpegInitialized = false) :
    initFFmpeg lr g =
      match lr with
      | Except.ok _ =>
        (Except.ok g.nextId,
         { g with nextId := g.nextId + 1, ffmpeg := some g.nextId,
                  ffmpegInitialized := true, fetchCount := g.fetchCount + 1 })
      | Except.error e =>
        (Except.error ("Failed to initialize video processing: " ++ e),
         { g with nextId := g.nextId + 1, fetchCount := g.fetchCount + 1 }) := by
  cases hf : g.ffmpeg <;> cases lr <;> simp [initFFmpeg, stepCaller, h, hf]

/-- C7: when the load of the remote artifacts fails, `initFFmpeg` raises the
single wrapped error `Failed to initialize video processing: <cause>`, the
module-level session state (`ffmpeg` and `ffmpegInitialized`) is left exactly
as it was — uninitialized — and a later call with a succeeding load retries
the whole fetch-and-instantiate from scratch and succeeds. -/
theorem claim7_init_failure_retry (msg : String) (g : FfmpegState)
    (h : g.ffmpegInitialized = false) :
    ∃ g1, initFFmpeg (Except.error msg) g =
        (Except.error ("Failed to initialize video processing: " ++ msg), g1) ∧
      g1.ffmpeg = g.ffmpeg ∧ g1.ffmpegInitialized = g.ffmpegInitialized ∧
      ∃ g2, initFFmpeg (Except.ok ()) g1 = (Except.ok g1.nextId, g2) ∧
        g2.fetchCount = g1.fetchCount + 1 ∧ g2.ffmpegInitialized = true ∧
        g2.ffmpeg = some g1.nextId :=
  ⟨⟨g.ffmpeg, g.ffmpegInitialized, g.fetchCount + 1, g.nextId + 1⟩,
   initFFmpeg_miss (Except.error msg) g h, rfl, rfl,
   ⟨some (g.nextId + 1), true, g.fetchCount + 2, g.nextId + 2⟩,
   initFFmpeg_miss (Except.ok ())
     ⟨g.ffmpeg, g.ffmpegInitialized, g.fetchCount + 1, g.nextId + 1⟩ h,
   rfl, rfl, rfl⟩

/-- Witness for C7: a failing load from the freshly loaded module state. -/
theorem claim7_witness :
    ∃ g1, initFFmpeg (Except.error "net down") initialFfmpegState =
        (Except.error ("Failed to initialize video processing: " ++ "net down"), g1) ∧
      g1.ffmpeg = initialFfmpegState.ffmpeg ∧
      g1.ffmpegInitialized = initialFfmpegState.ffmpegInitialized ∧
      ∃ g2, initFFmpeg (Except.ok ()) g1 = (Except.ok g1.nextId, g2) ∧
        g2.fetchCount = g1.fetchCount + 1 ∧ g2.ffmpegInitialized = true ∧
        g2.ffmpeg = some g1.nextId :=
  claim7_init_failure_retry "net down" initialFfmpegState rfl

/-- C9: every transcode call passes `exec` one fixed recipe — H.264
(`libx264`) at constant quality 24, width scaled to 1280 with auto height,
AAC audio at 128k, `faststart` always on — varying only in the input scratch
file name, and every successful call wraps the output as `video/mp4`. -/
theorem claim9_encode_recipe (file : MediaFile) :
    execArgs file = "-i" :: inputNameOf file ::
      ["-c:v", "libx264", "-preset", "medium", "-crf", "24", "-vf",
       "scale=1280:-1", "-c:a", "aac", "-b:a", "128k", "-movflags", "faststart",
       "output.mp4"] ∧
    (∀ f2 : MediaFile, (execArgs file).drop 2 = (execArgs f2).drop 2) ∧
    (∀ (env : ConvertEnv) (g : FfmpegState) (b : Blob) (g1 : FfmpegState)
        (t : ConvertTrace),
      detectAndConvertVideo file env g = (Except.ok b, g1, t) →
      b.type = "video/mp4" ∧ t.execCmd = some (execArgs file)) := by
  refine ⟨rfl, fun f2 => rfl, ?_⟩
  intro env g b g1 t h
  obtain ⟨h1, h2, _, _⟩ := detect_ok_shape file env g b g1 t h
  exact ⟨h1, h2⟩

/-- Witness for C9: the recipe and output type at a concrete successful
conversion. -/
theorem claim9_witness :
    (Blob.mk [9, 9] "video/mp4").type = "video/mp4" ∧
    (ConvertTrace.mk (some (execArgs mp4File)) true true).execCmd =
      some (execArgs mp4File) :=
  (claim9_encode_recipe mp4File).2.2 okConvertEnv initialFfmpegState
    ⟨[9, 9], "video/mp4"⟩ ⟨some 0, true, 1, 1⟩
    ⟨some (execArgs mp4File), true, true⟩ (by decide)

/-- C5 counterexample: two callers that invoke `initFFmpeg` concurrently
before any initialization completes perform two fetch-and-instantiate
sequences, not one, and finish holding two distinct instances (`0` and `1`):
the module has no in-flight-promise guard, only a check of the
already-initialized flag. -/
theorem claim5_counterexample :
    (concurrentAcquire 2).1.fetchCount = 2 ∧
    (concurrentAcquire 2).2 =
      [CallerPhase.finished (Except.ok 0), CallerPhase.finished (Except.ok 1)] := by
  decide

/-- C5 (amended): a call made after a successful initialization returns the
cached instance with no further fetches and no state change; but N callers
that all begin before any initialization completes do not share one load —
each performs its own fetch-and-instantiate sequence (N fetches in total)
and they finish holding N distinct instances. -/
theorem claim5_acquire_policy :
    (∀ (g : FfmpegState) (inst : Nat) (r : Except String Unit),
        g.ffmpegInitialized = true → g.ffmpeg = some inst →
        initFFmpeg r g = (Except.ok inst, g)) ∧
    (∀ n, (concurrentAcquire n).1.fetchCount = n ∧
      (concurrentAcquire n).2 =
        (List.range n).map (fun k => CallerPhase.finished (Except.ok k))) := by
  constructor
  · intro g inst r h1 h2
    simp [initFFmpeg, stepCaller, h1, h2]
  · intro n
    have h1 := stepRound_start_replicate (Except.ok ()) n initialFfmpegState rfl
    have hids : ((List.range n).map (fun k => initialFfmpegState.nextId + k)) =
        List.range n := by
      simp [initialFfmpegState]
    rw [hids] at h1
    simp only [concurrentAcquire, h1]
    constructor
    · rw [(stepRound_awaiting (List.range n) _).2]
      simp [initialFfmpegState]
    · exact (stepRound_awaiting (List.range n) _).1

/-- Witness for C5: the cached path at a concrete initialized state, and the
three-caller concurrent scenario performing three fetches. -/
theorem claim5_witness :
    initFFmpeg (Except.ok ()) ⟨some 5, true, 1, 6⟩ =
      (Except.ok 5, ⟨some 5, true, 1, 6⟩) ∧
    (concurrentAcquire 3).1.fetchCount = 3 :=
  ⟨claim5_acquire_policy.1 ⟨some 5, true, 1, 6⟩ 5 (Except.ok ()) rfl rfl,
   (claim5_acquire_policy.2 3).1⟩

/-- The first component of a `detectAndConvertVideo` result never depends on
the outcomes of the two scratch-file deletions. -/
theorem detect_result_ignores_delete (file : MediaFile) (lr wr : Except String Unit)
    (er : List String → Except String Unit) (rr : Except String (List Nat))
    (di dd di2 dd2 : Except String Unit) (g : FfmpegState) :
    (detectAndConvertVideo file ⟨lr, wr, er, rr, di2, dd2⟩ g).1 =
      (detectAndConvertVideo file ⟨lr, wr, er, rr, di, dd⟩ g).1 := by
  unfold detectAndConvertVideo
  dsimp only
  rcases initFFmpeg lr g with ⟨r0, g1⟩
  cases r0 <;> cases wr <;> rcases er (execArgs file) with u | e <;> cases rr <;>
    cases di <;> cases di2 <;> rfl

/-- The deletion attempts of a `detectAndConvertVideo` call, by exit path:
on success the input deletion is attempted (and the output deletion too,
when the input deletion did not throw); on failure neither is attempted. -/
theorem detect_cleanup_shape (file : MediaFile) (lr wr : Except String Unit)
    (er : List String → Except String Unit) (rr : Except String (List Nat))
    (di dd : Except String Unit) (g : FfmpegState) :
    ((detectAndConvertVideo file ⟨lr, wr, er, rr, di, dd⟩ g).1.isOk = true →
      (detectAndConvertVideo file ⟨lr, wr, er, rr, di, dd⟩ g).2.2.deleteInputAttempted
          = true ∧
      (di.isOk = true →
        (detectAndConvertVideo file ⟨lr, wr, er, rr, di, dd⟩ g).2.2.deleteOutputAttempted
          = true)) ∧
    ((detectAndConvertVideo file ⟨lr, wr, er, rr, di, dd⟩ g).1.isOk = false →
      (detectAndConvertVideo file ⟨lr, wr, er, rr, di, dd⟩ g).2.2.deleteInputAttempted
          = false ∧
      (detectAndConvertVideo file ⟨lr, wr, er, rr, di, dd⟩ g).2.2.deleteOutputAttempted
          = false) := by
  unfold detectAndConvertVideo
  dsimp only
  rcases initFFmpeg lr g with ⟨r0, g1⟩
  cases r0 <;> cases wr <;> rcases er (execArgs file) with u | e <;> cases rr <;>
    cases di <;> simp [Except.isOk, Except.toBool]

/-- C6 counterexample: when the encode command throws, the call exits with
the wrapped error without attempting either scratch-file deletion — cleanup
is not performed on every exit path, only on the success path. -/
theorem claim6_counterexample :
    detectAndConvertVideo movFile failExecEnv initialFfmpegState =
      (Except.error "Failed to convert video: boom", ⟨some 0, true, 1, 1⟩,
       ⟨some (execArgs movFile), false, false⟩) ∧
    (detectAndConvertVideo movFile failExecEnv initialFfmpegState).2.2.deleteInputAttempted
        = false := by
  constructor <;> decide

/-- C6 (amended): both scratch-file deletions are attempted, best-effort, on
the success path (the output deletion is skipped if the input deletion
throws); on failure exit paths no deletion is attempted; and the deletion
outcomes never change the call's result — a deletion failure cannot turn a
successful transcode into an error. -/
theorem claim6_cleanup_policy (file : MediaFile) (env : ConvertEnv) (g : FfmpegState) :
    ((detectAndConvertVideo file env g).1.isOk = true →
      (detectAndConvertVideo file env g).2.2.deleteInputAttempted = true ∧
      (env.deleteInputResult.isOk = true →
        (detectAndConvertVideo file env g).2.2.deleteOutputAttempted = true)) ∧
    ((detectAndConvertVideo file env g).1.isOk = false →
      (detectAndConvertVideo file env g).2.2.deleteInputAttempted = false ∧
      (detectAndConvertVideo file env g).2.2.deleteOutputAttempted = false) ∧
    (∀ d1 d2, (detectAndConvertVideo file
        { env with deleteInputResult := d1, deleteOutputResult := d2 } g).1 =
      (detectAndConvertVideo file env g).1) := by
  obtain ⟨lr, wr, er, rr, di, dd⟩ := env
  have h := detect_cleanup_shape file lr wr er rr di dd g
  exact ⟨h.1, h.2,
    fun d1 d2 => detect_result_ignores_delete file lr wr er rr di dd d1 d2 g⟩

/-- Witness for C6: a successful conversion attempts both deletions, and
failing deletions leave the successful result unchanged. -/
theorem claim6_witness :
    (detectAndConvertVideo mp4File okConvertEnv initialFfmpegState).2.2.deleteInputAttempted
        = true ∧
    (detectAndConvertVideo mp4File okConvertEnv initialFfmpegState).2.2.deleteOutputAttempted
        = true ∧
    (detectAndConvertVideo mp4File
        { okConvertEnv with deleteInputResult := Except.error "EPERM", deleteOutputResult := Except.error "EPERM" }
        initialFfmpegState).1 =
      (detectAndConvertVideo mp4File okConvertEnv initialFfmpegState).1 :=
  have h := claim6_cleanup_policy mp4File okConvertEnv initialFfmpegState
  ⟨(h.1 (by decide)).1, (h.1 (by decide)).2 (by decide),
   h.2.2 (Except.error "EPERM") (Except.error "EPERM")⟩

/-- Authorization grants a token exactly when the declared content type is in
the allow-list and the declared size is within the maximum. -/
theorem authorize_ok_iff (allowed : List String) (mx : Nat) (ct : String) (sz : Nat) :
    (uploadPipeline allowed mx ct sz).2.isOk = true ↔ (ct ∈ allowed ∧ sz ≤ mx) := by
  have hc : allowed.contains ct = true ↔ ct ∈ allowed := by
    simp [List.contains, List.elem_iff]
  unfold uploadPipeline authorizeUpload
  split_ifs with h1 h2
  · exact ⟨fun _ => ⟨hc.mp h1, h2⟩, fun _ => rfl⟩
  · exact ⟨fun hfalse => (Bool.false_ne_true hfalse).elim,
      fun hand => absurd hand.2 h2⟩
  · exact ⟨fun hfalse => (Bool.false_ne_true hfalse).elim,
      fun hand => absurd (hc.mpr hand.1) h1⟩

/-- A rejected authorization transfers no bytes. -/
theorem reject_no_transfer (allowed : List String) (mx : Nat) (ct : String) (sz : Nat)
    (h : (uploadPipeline allowed mx ct sz).2.isOk = false) :
    (uploadPipeline allowed mx ct sz).1 = false := by
  unfold uploadPipeline at h ⊢
  rcases ha : authorizeUpload allowed mx ct sz with e | u
  · rfl
  · rw [ha] at h
    exact absurd h (by simp [Except.isOk, Except.toBool])

/-- C8: the upload authorizer grants a token exactly for requests whose
declared content type is in the configured allow-list (`video/mp4`,
`video/quicktime`, `video/webm`, `video/mov`, plus `video/x-m4v` in the
first revision) and whose declared size is at most `50 * 1024 * 1024` bytes;
any rejection happens at the authorize step, before any byte is
transferred. -/
theorem claim8_upload_authorization :
    (∀ ct sz, (uploadPipeline allowedContentTypesV1 maximumSizeInBytes ct sz).2.isOk
        = true ↔ (ct ∈ allowedContentTypesV1 ∧ sz ≤ maximumSizeInBytes)) ∧
    (∀ ct sz, (uploadPipeline allowedContentTypesV2 maximumSizeInBytes ct sz).2.isOk
        = true ↔ (ct ∈ allowedContentTypesV2 ∧ sz ≤ maximumSizeInBytes)) ∧
    (∀ (allowed : List String) ct sz,
      (uploadPipeline allowed maximumSizeInBytes ct sz).2.isOk = false →
      (uploadPipeline allowed maximumSizeInBytes ct sz).1 = false) :=
  ⟨fun ct sz => authorize_ok_iff allowedContentTypesV1 maximumSizeInBytes ct sz,
   fun ct sz => authorize_ok_iff allowedContentTypesV2 maximumSizeInBytes ct sz,
   fun allowed ct sz h => reject_no_transfer allowed maximumSizeInBytes ct sz h⟩

/-- Witness for C8: a conforming request is granted under both revisions;
an out-of-list request is rejected with no bytes transferred. -/
theorem claim8_witness :
    (uploadPipeline allowedContentTypesV1 maximumSizeInBytes "video/x-m4v" 1000).2.isOk
        = true ∧
    (uploadPipeline allowedContentTypesV2 maximumSizeInBytes "video/webm" 1000).2.isOk
        = true ∧
    (uploadPipeline allowedContentTypesV2 maximumSizeInBytes "text/html" 1000).1
        = false :=
  ⟨(claim8_upload_authorization.1 "video/x-m4v" 1000).mpr ⟨by decide, by decide⟩,
   (claim8_upload_authorization.2.1 "video/webm" 1000).mpr ⟨by decide, by decide⟩,
   claim8_upload_authorization.2.2 allowedContentTypesV2 "text/html" 1000 (by decide)⟩

end SmokeShow
